import Mathlib

/-!
Shallow embedding of `src/fork_shim.c` (an LD_PRELOAD shim around `fork`
that writes an OOM score for every new child unless the child's command
name or one of its argument tokens matches an entry of the whitelist file
`/etc/oom_whitelist`), together with theorems settling the specification
claims about it.

Modelling conventions:
* C strings are `List Char` (no interior NUL bytes).
* The whitelist file is presented as the sequence of strings that the
  successive `fgets(wl_proc_name, sizeof(wl_proc_name)-1, ...)` calls of
  `check_wl_config` return; a read contains `'\n'` exactly when `fgets`
  found the line terminator within its 127-character budget.  `none` for
  the whole file models `access`/`fopen` failure on `/etc/oom_whitelist`.
* The local array `last[128+1]` of `check_wl_config` is read before it is
  ever written (line 155 of the source); its unknown initial stack content
  is an explicit parameter `g` of the embedding.
* `/proc/<pid>/cmdline` is NUL-delimited, so the `getdelim(..., 0, ...)`
  loop of `fork` yields the argument vector tokens one by one; the tokens
  are a `List (List Char)`, and `none` models a failed existence probe of
  the cmdline file.
* Calls of C library functions on a NULL pointer (`strcmp(..., NULL)`,
  `strstr(..., NULL)`) and `free` of a pointer that was never returned by
  an allocator are undefined behaviour; the embedding makes the spots
  where the shim reaches them explicit (`Option`, `ForkOutcome.ub`).
-/

namespace ForkShim

/-- Convenience: the character list of a string literal. -/
def str (s : String) : List Char := s.data

/-- Result of `strstr(hay, need) != NULL`: does `need` occur contiguously
inside `hay`?  (In `check_wl_config` the haystack is the whitelist entry and
the needle is the candidate, so a short candidate matches a longer entry.) -/
def strstrB (hay need : List Char) : Bool :=
  match hay with
  | [] => need.isEmpty
  | c :: t => need.isPrefixOf (c :: t) || strstrB t need

/-- The C test `last[strlen(last)-1] != '\n'` (source line 155): the buffer
does not end in a newline.  For the empty buffer the C code reads out of
bounds; the embedding answers `true` (`none != some '\n'`). -/
def noTrailingNL (s : List Char) : Bool := s.getLast? != some '\n'

/-- The scan loop of `check_wl_config` (source lines 140-181) over the
sequence of `fgets` reads, with the loop state: `last` (the previously
saved line, initially uninitialized stack content) and `catch`
(`catch_bad_things`).  Returns `true` when the function returns 1. -/
def wlScan (p : List Char) : List (List Char) → List Char → Nat → Bool
  | [], _, _ => false
  | r :: rest, last, cnt =>
    if !(r.contains '\n') then wlScan p rest last (cnt + 1)
    else if (r.dropLast).isEmpty then wlScan p rest last cnt
    else if (r.dropLast).head? == some '#' then wlScan p rest last cnt
    else if noTrailingNL last && decide (0 < cnt) then wlScan p rest r cnt
    else if (r.dropLast).head? == some '!' then
      (if (r.dropLast).tail == p then true else wlScan p rest r (cnt + 1))
    else
      (if strstrB (r.dropLast) p then true else wlScan p rest r (cnt + 1))

/-- The function `check_wl_config` (source lines 121-184).  `file = none`
models a missing or unopenable `/etc/oom_whitelist` (lines 129-138);
otherwise `file = some reads` is the sequence of `fgets` reads.  `g` is the
initial (uninitialized) content of the local buffer `last`. -/
def check_wl_config (file : Option (List (List Char))) (g : List Char)
    (p : List Char) : Nat :=
  match file with
  | none => 0
  | some reads => if wlScan p reads g 0 then 1 else 0

/-- Classification outcome of the exemption matcher. -/
inductive Classification where
  | Exempt
  | Standard
  deriving DecidableEq

/-- The matcher's verdict for one candidate: `Exempt` iff `check_wl_config`
returns 1. -/
def classify (file : Option (List (List Char))) (g : List Char)
    (p : List Char) : Classification :=
  if check_wl_config file g p = 1 then .Exempt else .Standard

/-- Whether the scan loop of `check_wl_config` reaches the matching code
(`strcmp`/`strstr`, source lines 163/171) for at least one read.  Up to that
point the loop inspects only the reads and the `last`/`cnt` state, never
`proc_name`; so when `check_wl_config` is called with a NULL `proc_name`
this is exactly the point where behaviour becomes undefined. -/
def wlReachesMatch : List (List Char) → List Char → Nat → Bool
  | [], _, _ => false
  | r :: rest, last, cnt =>
    if !(r.contains '\n') then wlReachesMatch rest last (cnt + 1)
    else if (r.dropLast).isEmpty then wlReachesMatch rest last cnt
    else if (r.dropLast).head? == some '#' then wlReachesMatch rest last cnt
    else if noTrailingNL last && decide (0 < cnt) then wlReachesMatch rest r cnt
    else true

/-- Outcome of `check_wl_config` when the shim passes it a NULL pointer
(which the token loop of `fork` does, source line 89-90): with no whitelist
file it returns 0 before touching `proc_name`; with a file, behaviour is
defined (returns 0) only if no read ever reaches `strcmp`/`strstr`. -/
def check_wl_config_null (file : Option (List (List Char))) (g : List Char) :
    Option Nat :=
  match file with
  | none => some 0
  | some reads => if wlReachesMatch reads g 0 then none else some 0

/-- Everything after the final `'/'` of `s`: the combined effect of
`strrchr(cmdArg, '/')` and the `memmove` over the slash (source lines
82-85). -/
def afterLastSlash (s : List Char) : List Char :=
  (s.reverse.takeWhile (fun c => c != '/')).reverse

/-- Accumulator-based splitting of a string into the successive `strtok(_, " ")`
tokens: maximal nonempty runs of non-space characters. -/
def strtokAux : List Char → List Char → List (List Char)
  | [], cur => if cur.isEmpty then [] else [cur.reverse]
  | c :: t, cur =>
    if c == ' ' then
      (if cur.isEmpty then strtokAux t [] else cur.reverse :: strtokAux t [])
    else strtokAux t (c :: cur)

/-- The sequence of tokens `strtok(s, " ")`, `strtok(NULL, " ")`, ... yields
for `s`, up to (not including) the terminating NULL. -/
def strtokSpaces (s : List Char) : List (List Char) := strtokAux s []

/-- The sequence of `proc_name` pointers `fork` passes to `check_wl_config`
while handling one argv token (source lines 81-108); `none` is the NULL
pointer.  For a token starting with `'/'` the inner loop advances `token`
before testing it, so the pieces checked are the space-separated pieces of
the basename minus the first one, followed by NULL; a token not starting
with `'/'` is checked whole. -/
def argCandidates (arg : List Char) : List (Option (List Char)) :=
  if arg.head? == some '/' then
    (if (strtokSpaces (afterLastSlash arg)).isEmpty then []
     else ((strtokSpaces (afterLastSlash arg)).tail.map some) ++ [none])
  else [some arg]

/-- All candidate pointers passed to `check_wl_config` over the whole argv
token list (the `getdelim` loop of `fork`), ignoring early returns. -/
def forkCandidates (args : List (List Char)) : List (Option (List Char)) :=
  args.flatMap argCandidates

/-- Result of one intercepted `fork` call on the parent side.
`ret pid score`: the shim returns `pid`, having written `score` (if `some`)
to `/proc/pid/oom_score_adj`.  `ub score`: the shim reached C undefined
behaviour (`strcmp`/`strstr` on NULL, or `free` of a pointer inside the
`getdelim` buffer) after writing `score` (if `some`). -/
inductive ForkOutcome where
  | ret (val : Int) (score : Option Int)
  | ub (score : Option Int)
  deriving DecidableEq

/-- The inner `while (token)` loop of `fork` (source lines 88-98) over the
remaining strtok pieces of the basename, ending with the NULL check.
`some true`: a piece matched (the shim then writes -1000 and executes
`free(token)` on a non-allocator pointer).  `some false`: no match and the
final NULL call returned benignly.  `none`: the NULL call reached
`strcmp`/`strstr` (undefined behaviour). -/
def innerTokenLoop (file : Option (List (List Char))) (g : List Char) :
    List (List Char) → Option Bool
  | [] =>
    (match check_wl_config_null file g with
     | none => none
     | some _ => some false)
  | p :: ps =>
    if check_wl_config file g p = 1 then some true else innerTokenLoop file g ps

/-- The `while(getdelim(...))` loop of `fork` (source lines 76-109) over the
argv tokens, followed by the default write of 1000 (line 111) when no token
matched. -/
def scanArgs (file : Option (List (List Char))) (g : List Char) (pid : Int) :
    List (List Char) → ForkOutcome
  | [] => .ret pid (some 1000)
  | arg :: rest =>
    if arg.head? == some '/' then
      (if (strtokSpaces (afterLastSlash arg)).isEmpty then
        scanArgs file g pid rest
       else
        match innerTokenLoop file g (strtokSpaces (afterLastSlash arg)).tail with
        | some true => .ub (some (-1000))
        | some false => scanArgs file g pid rest
        | none => .ub none)
    else if check_wl_config file g arg = 1 then .ret pid (some (-1000))
    else scanArgs file g pid rest

/-- The interceptor `fork` (source lines 47-119).  `pid` is the value the
original fork primitive returned; `oomExists` models
`access("/proc/pid/oom_score_adj", F_OK) != -1`; `args = some l` models a
present, readable `/proc/pid/cmdline` whose NUL-delimited tokens are `l`,
and `args = none` an absent one; `file`/`g` are the whitelist inputs of
`check_wl_config`. -/
def fork (pid : Int) (oomExists : Bool) (args : Option (List (List Char)))
    (file : Option (List (List Char))) (g : List Char) : ForkOutcome :=
  if pid = 0 then .ret 0 none
  else if oomExists then
    match args with
    | none => .ret pid none
    | some l => scanArgs file g pid l
  else .ret pid none

/-- Fuel-based digit accumulation: prepends the decimal digits of `n` to
`acc`, provided `n < fuel`. -/
def decReprCore : Nat → Nat → List Char → List Char
  | 0, _, acc => acc
  | fuel + 1, n, acc =>
    if n < 10 then Char.ofNat (48 + n % 10) :: acc
    else decReprCore fuel (n / 10) (Char.ofNat (48 + n % 10) :: acc)

/-- The decimal digit characters of `n`, as `snprintf`'s `%d` prints a
nonnegative value. -/
def decRepr (n : Nat) : List Char := decReprCore (n + 1) n []

/-- The untruncated text `/proc/<pid>/oom_score_adj`. -/
def oomPathFull (pid : Nat) : List Char :=
  str "/proc/" ++ decRepr pid ++ str "/oom_score_adj"

/-- The content of the 26-byte buffer `fileName` after
`snprintf(fileName, sizeof(fileName), "/proc/%d/oom_score_adj", pid)`
(source line 62): at most 25 characters are kept. -/
def oomPath (pid : Nat) : List Char := (oomPathFull pid).take 25

/-- The untruncated text `/proc/<pid>/cmdline`. -/
def cmdPathFull (pid : Nat) : List Char :=
  str "/proc/" ++ decRepr pid ++ str "/cmdline"

/-- The content of the 20-byte buffer `cmdFileName` after
`snprintf(cmdFileName, sizeof(cmdFileName), "/proc/%d/cmdline", pid)`
(source line 63): at most 19 characters are kept. -/
def cmdPath (pid : Nat) : List Char := (cmdPathFull pid).take 19

/-- A whitelist line, as read, would match candidate `p` if it were
evaluated: after stripping the final character it is non-empty, is not a
comment, and either (with a leading `!`) equals `p` exactly or (otherwise)
contains `p` as a substring. -/
def lineMatches (p r : List Char) : Bool :=
  !(r.dropLast).isEmpty && (r.dropLast).head? != some '#' &&
    (if (r.dropLast).head? == some '!' then (r.dropLast).tail == p
     else strstrB (r.dropLast) p)

/-- The whitelist used by the concrete scenario of the spec: a comment
line, an empty line, an exact entry `!sshd` and a substring entry `bash`. -/
def wlScenario : List (List Char) :=
  [str "# comment\n", str "\n", str "!sshd\n", str "bash\n"]

/-- When every read is newline-terminated, the scan never consults the
uninitialized `last` buffer: at `cnt = 0` the rollover test is disarmed, and
once an entry has been evaluated `last` holds that newline-terminated line.
Hence the initial stack garbage is irrelevant. -/
theorem wlScan_g_irrelevant (p : List Char) :
    ∀ reads : List (List Char), (∀ r ∈ reads, r.contains '\n' = true) →
    ∀ g g' : List Char, wlScan p reads g 0 = wlScan p reads g' 0 := by
  intro reads
  induction reads with
  | nil => intro _ g g'; rfl
  | cons r rest ih =>
    intro h g g'
    have hr : r.contains '\n' = true := h r (List.mem_cons_self r rest)
    have hrest : ∀ x ∈ rest, x.contains '\n' = true :=
      fun x hx => h x (List.mem_cons_of_mem r hx)
    have hd : (decide ((0:Nat) < 0)) = false := rfl
    simp only [wlScan, hr, Bool.not_true, Bool.false_eq_true, if_false, hd,
      Bool.and_false]
    split
    · exact ih hrest g g'
    · split
      · exact ih hrest g g'
      · rfl

/-- Attribution of an `Exempt` verdict: whenever the scan loop returns 1,
some newline-terminated read matches the candidate.  In particular a read
in which `fgets` found no newline (a truncated entry) is never the source
of an exemption. -/
theorem wlScan_attrib (p : List Char) :
    ∀ (reads : List (List Char)) (last : List Char) (cnt : Nat),
    wlScan p reads last cnt = true →
    ∃ r, r ∈ reads ∧ r.contains '\n' = true ∧ lineMatches p r = true := by
  intro reads
  induction reads with
  | nil => intro last cnt h; exact absurd h (by simp [wlScan])
  | cons r rest ih =>
    intro last cnt h
    simp only [wlScan] at h
    split at h
    · obtain ⟨x, hx, hh⟩ := ih _ _ h
      exact ⟨x, List.mem_cons_of_mem _ hx, hh⟩
    next h1 =>
      have hnl : r.contains '\n' = true := by simpa using h1
      split at h
      · obtain ⟨x, hx, hh⟩ := ih _ _ h
        exact ⟨x, List.mem_cons_of_mem _ hx, hh⟩
      next h2 =>
        have e2 : (r.dropLast).isEmpty = false := by simpa using h2
        split at h
        · obtain ⟨x, hx, hh⟩ := ih _ _ h
          exact ⟨x, List.mem_cons_of_mem _ hx, hh⟩
        next h3 =>
          have e3 : ((r.dropLast).head? == some '#') = false := by
            simpa using h3
          split at h
          · obtain ⟨x, hx, hh⟩ := ih _ _ h
            exact ⟨x, List.mem_cons_of_mem _ hx, hh⟩
          · split at h
            next h5 =>
              split at h
              next h6 =>
                refine ⟨r, List.mem_cons_self _ _, hnl, ?_⟩
                have e3' : ¬ (r.dropLast).head? = some '#' := by simpa using e3
                simp [lineMatches, e2, e3', h5, h6]
              next h6 =>
                obtain ⟨x, hx, hh⟩ := ih _ _ h
                exact ⟨x, List.mem_cons_of_mem _ hx, hh⟩
            next h5 =>
              split at h
              next h6 =>
                refine ⟨r, List.mem_cons_self _ _, hnl, ?_⟩
                have e3' : ¬ (r.dropLast).head? = some '#' := by simpa using e3
                simp [lineMatches, e2, e3', h5, h6]
              next h6 =>
                obtain ⟨x, hx, hh⟩ := ih _ _ h
                exact ⟨x, List.mem_cons_of_mem _ hx, hh⟩

/-- Accumulator lemma for the digit printer. -/
theorem decReprCore_append :
    ∀ (fuel n : Nat) (acc : List Char),
    decReprCore fuel n acc = decReprCore fuel n [] ++ acc := by
  intro fuel
  induction fuel with
  | zero => intro n acc; rfl
  | succ f ih =>
    intro n acc
    simp only [decReprCore]
    split
    · rfl
    · rw [ih (n / 10) (Char.ofNat (48 + n % 10) :: acc),
        ih (n / 10) [Char.ofNat (48 + n % 10)], List.append_assoc]
      rfl

/-- The digit printer ignores surplus fuel. -/
theorem decReprCore_fuel :
    ∀ (f1 : Nat), ∀ (f2 n : Nat) (acc : List Char), n < f1 → n < f2 →
    decReprCore f1 n acc = decReprCore f2 n acc := by
  intro f1
  induction f1 with
  | zero => intro f2 n acc h1 _; omega
  | succ f ih =>
    intro f2 n acc h1 h2
    match f2, h2 with
    | f2' + 1, h2 =>
      simp only [decReprCore]
      split
      · rfl
      · next hn => exact ih f2' (n / 10) _ (by omega) (by omega)

/-- Unfolding of `decRepr` for a number of at least two digits. -/
theorem decRepr_big (n : Nat) (h : ¬ n < 10) :
    decRepr n = decRepr (n / 10) ++ [Char.ofNat (48 + n % 10)] := by
  have step : decReprCore (n + 1) n [] =
      decReprCore n (n / 10) [Char.ofNat (48 + n % 10)] := by
    simp only [decReprCore]
    rw [if_neg h]
  rw [decRepr, step,
    decReprCore_fuel n (n / 10 + 1) (n / 10) _ (by omega) (by omega),
    decReprCore_append, decRepr]

/-- Unfolding of `decRepr` for a single digit. -/
theorem decRepr_small (n : Nat) (h : n < 10) :
    decRepr n = [Char.ofNat (48 + n % 10)] := by
  rw [decRepr]
  simp only [decReprCore]
  rw [if_pos h]

/-- The printed decimal numeral has at most `k + 1` digits exactly when the
number is below `10 ^ (k + 1)`. -/
theorem decRepr_length_le_iff :
    ∀ (k n : Nat), (decRepr n).length ≤ k + 1 ↔ n < 10 ^ (k + 1) := by
  intro k
  induction k with
  | zero =>
    intro n
    by_cases h : n < 10
    · simp [decRepr_small n h]
      omega
    · rw [decRepr_big n h]
      simp only [List.length_append, List.length_cons, List.length_nil]
      have hp : 0 < (decRepr (n / 10)).length := by
        by_cases h10 : n / 10 < 10
        · rw [decRepr_small _ h10]; simp
        · rw [decRepr_big _ h10]; simp
      constructor
      · intro hle; omega
      · intro hlt; omega
  | succ k ih =>
    intro n
    by_cases h : n < 10
    · rw [decRepr_small n h]
      have hp : (10:Nat) ≤ 10 ^ (k + 1 + 1) := Nat.le_self_pow (by omega) 10
      simp only [List.length_cons, List.length_nil]
      constructor
      · intro _; omega
      · intro _; omega
    · rw [decRepr_big n h]
      simp only [List.length_append, List.length_cons, List.length_nil]
      have hdiv := ih (n / 10)
      have hmul : (10:Nat) ^ (k + 1 + 1) = 10 ^ (k + 1) * 10 := by
        rw [pow_succ]
      constructor
      · intro hle
        have : n / 10 < 10 ^ (k + 1) := hdiv.mp (by omega)
        have := (Nat.div_lt_iff_lt_mul (by omega : (0:Nat) < 10)).mp this
        omega
      · intro hlt
        have : n / 10 < 10 ^ (k + 1) := by
          rw [Nat.div_lt_iff_lt_mul (by omega : (0:Nat) < 10)]
          omega
        have := hdiv.mpr this
        omega

/-- At most five printed digits exactly when the number is at most 99999. -/
theorem decRepr_len_le_five (n : Nat) :
    (decRepr n).length ≤ 5 ↔ n ≤ 99999 := by
  have h := decRepr_length_le_iff 4 n
  norm_num at h
  omega

/-- Truncating a list to `n` elements is the identity exactly when the list
has at most `n` elements. -/
theorem take_eq_self_iff_len (l : List Char) (n : Nat) :
    l.take n = l ↔ l.length ≤ n := by
  constructor
  · intro h
    have := congrArg List.length h
    rw [List.length_take] at this
    omega
  · intro h
    exact List.take_of_length_le h

/-- Claim C1: the claim says that for an argv whose first token begins with `/`,
the basename is among the candidate strings checked against the whitelist.
In the code the inner token loop advances `token` before testing it, so for
argv `["/usr/sbin/sshd"]` the only pointer ever passed to `check_wl_config`
is NULL: the basename `sshd` is correctly extracted but never checked. -/
theorem c1_basename_never_a_candidate :
    afterLastSlash (str "/usr/sbin/sshd") = str "sshd" ∧
    forkCandidates [str "/usr/sbin/sshd"] = [none] ∧
    some (str "sshd") ∉ forkCandidates [str "/usr/sbin/sshd"] ∧
    forkCandidates [str "/bin/sh", str "-c", str "id"] =
      [none, some (str "-c"), some (str "id")] := by
  decide

/-- Claim C2 counterexample: a cmdline that exists but yields no tokens does not
end in the not-found outcome: the shim writes the standard score 1000 for
that identifier (source line 111), contradicting the claim that no score is
ever written in that case. -/
theorem c2_empty_cmdline_writes_default :
    fork 5 true (some []) none [] = .ret 5 (some 1000) := by decide

/-- Claim C2 amended: when the score-control attribute is absent at probe time, or
the argument-vector interface is absent after a successful probe, no score
is written and the interceptor returns the identifier normally; but a
readable cmdline that yields no tokens makes the shim write the standard
score 1000 (still returning normally). -/
theorem c2_vanished_process_no_write (pid : Int)
    (args : Option (List (List Char))) (file : Option (List (List Char)))
    (g : List Char) (h : ¬ pid = 0) :
    fork pid false args file g = .ret pid none ∧
    fork pid true none file g = .ret pid none ∧
    fork pid true (some []) file g = .ret pid (some 1000) := by
  refine ⟨?_, ?_, ?_⟩ <;> simp [fork, h, scanArgs]

/-- Witness for C2 amended at `pid = 5`. -/
theorem c2_vanished_process_no_write_witness :
    fork 5 false (some [str "x"]) none [] = .ret 5 none ∧
    fork 5 true none none [] = .ret 5 none ∧
    fork 5 true (some []) none [] = .ret 5 (some 1000) :=
  c2_vanished_process_no_write 5 (some [str "x"]) none [] (by decide)

/-- Claim C3: with a well-formed entry `zzz` before the truncated line, the saved
`last` buffer ends in a newline, so the rollover guard (source line 155)
never fires and the remainder read `AAAsh` of the truncated entry is
evaluated as an ordinary entry: candidate `sh` becomes Exempt through it
(`zzz` itself does not contain `sh`, and the truncated read has no
newline), contradicting the claim that the remainder is always discarded. -/
theorem c3_remainder_can_grant_exemption :
    check_wl_config
        (some [str "zzz\n", List.replicate 127 'A', str "AAAsh\n"]) []
        (str "sh") = 1 ∧
    strstrB (str "zzz") (str "sh") = false ∧
    (List.replicate 127 'A').contains '\n' = false := by decide

/-- Claim C4: the concrete scenario of the spec, for every initial content of the
uninitialized `last` buffer: `sshd` is Exempt by the exact entry, `sshdx`
is Standard, `ba` is Exempt because entry `bash` contains it, `zsh` is
Standard. -/
theorem c4_concrete_scenario (g : List Char) :
    classify (some wlScenario) g (str "sshd") = .Exempt ∧
    classify (some wlScenario) g (str "sshdx") = .Standard ∧
    classify (some wlScenario) g (str "ba") = .Exempt ∧
    classify (some wlScenario) g (str "zsh") = .Standard := by
  have e : ∀ p, check_wl_config (some wlScenario) g p =
      check_wl_config (some wlScenario) [] p := by
    intro p
    simp only [check_wl_config]
    rw [wlScan_g_irrelevant p wlScenario (by decide) g []]
  refine ⟨?_, ?_, ?_, ?_⟩ <;> (simp only [classify, e]; decide)

/-- Claim C5: when `/etc/oom_whitelist` is absent or cannot be opened, every
candidate classifies as Standard. -/
theorem c5_missing_file_standard (g p : List Char) :
    classify none g p = .Standard := rfl

/-- Claim C6: the claim says a well-formed Substring entry containing the
candidate always yields Exempt.  With a truncated line whose remainder
happens to be a comment line, the rollover guard discards the next genuine
entry instead — but only when the uninitialized `last` buffer does not end
in a newline: candidate `sh` against entry `sshd` yields Standard for
garbage `x` and Exempt for garbage `x\n`, refuting the claim (and showing
the verdict depends on uninitialized memory). -/
theorem c6_substring_entry_can_be_skipped :
    strstrB (str "sshd") (str "sh") = true ∧
    check_wl_config
        (some [List.replicate 127 'A', str "#tail\n", str "sshd\n"])
        (str "x") (str "sh") = 0 ∧
    check_wl_config
        (some [List.replicate 127 'A', str "#tail\n", str "sshd\n"])
        (str "x\n") (str "sh") = 1 := by decide

/-- Claim C7: an Exempt verdict is always attributable to a newline-terminated
read that matches; a read in which `fgets` found no line terminator (a
truncated entry) never by itself produces the exemption. -/
theorem c7_truncated_line_never_matches (p : List Char)
    (reads : List (List Char)) (g : List Char)
    (h : check_wl_config (some reads) g p = 1) :
    ∃ r, r ∈ reads ∧ r.contains '\n' = true ∧ lineMatches p r = true := by
  have hs : wlScan p reads g 0 = true := by
    cases hb : wlScan p reads g 0 with
    | true => rfl
    | false => simp [check_wl_config, hb] at h
  exact wlScan_attrib p reads g 0 hs

/-- Witness for C7 on the one-entry list `sshd`. -/
theorem c7_truncated_line_never_matches_witness :
    ∃ r, r ∈ [str "sshd\n"] ∧ r.contains '\n' = true ∧
      lineMatches (str "sh") r = true :=
  c7_truncated_line_never_matches (str "sh") [str "sshd\n"] [] (by decide)

/-- Claim C8: the claim says the matcher returns Standard exactly when no entry of
the list matches.  Here the only well-formed entry is `qqq`, which does not
contain `zsh` (the truncated line and its remainder are not entries), yet
the matcher returns Exempt: the remainder read `BBzsh` is evaluated as an
entry because the previously saved line ends in a newline. -/
theorem c8_standard_not_iff_no_entry_matches :
    check_wl_config
        (some [str "qqq\n", List.replicate 127 'B', str "BBzsh\n"]) []
        (str "zsh") = 1 ∧
    strstrB (str "qqq") (str "zsh") = false ∧
    (List.replicate 127 'B').contains '\n' = false := by decide

/-- Claim C9: the child side does return zero immediately, independent of all
classification inputs; but on the parent side the return contract is
broken: with argv `["/bin/sh"]` and any whitelist with one ordinary entry,
the token loop hands NULL to `check_wl_config`, which reaches
`strstr(entry, NULL)` — undefined behaviour instead of returning the
identifier. -/
theorem c9_parent_return_contract_broken :
    (∀ (oe : Bool) (args file : Option (List (List Char))) (g : List Char),
      fork 0 oe args file g = .ret 0 none) ∧
    fork 7 true (some [str "/bin/sh"]) (some [str "foo\n"]) [] = .ub none := by
  exact ⟨fun _ _ _ _ => rfl, by decide⟩

/-- Claim C10: the 26-byte and 20-byte path buffers hold the untruncated
`/proc/<pid>/oom_score_adj` and `/proc/<pid>/cmdline` texts exactly for
identifiers of at most five decimal digits; for `pid > 99999` snprintf
truncates, so the constructed path differs from the intended one. -/
theorem c10_path_buffers_five_digits (pid : Nat) :
    ((oomPath pid = oomPathFull pid) ↔ pid ≤ 99999) ∧
    ((cmdPath pid = cmdPathFull pid) ↔ pid ≤ 99999) := by
  have hl := decRepr_len_le_five pid
  have h1 : (str "/proc/").length = 6 := rfl
  have h2 : (str "/oom_score_adj").length = 14 := rfl
  have h3 : (str "/cmdline").length = 8 := rfl
  constructor
  · rw [oomPath, take_eq_self_iff_len, oomPathFull,
      List.length_append, List.length_append, h1, h2]
    omega
  · rw [cmdPath, take_eq_self_iff_len, cmdPathFull,
      List.length_append, List.length_append, h1, h3]
    omega

end ForkShim
